import Mathlib

/-!
A shallow embedding of the conversation-orchestration engine in
`modules/chatgpt.py`: the tool-call dispatcher (`process_tool_calls`),
the redaction passes (`redact_always`, `redact_messages`), the per-turn
tool-set selection (lines 128-158 of `send_message`), and the
send/retry pipeline of `send_message` itself.

External collaborators that are not part of the sources (the
`gpt_functions` capability registry and its flags, `cmd_args`,
`checklist`, the JSON parser, the network) are modelled as parameters:
an `Env` record carries the registry, the argument parser and the tool
definitions, a `Flags` record carries the phase flags, and the remote
API is an oracle `Nat -> Option Response` indexed by the retry counter
(`none` = transport failure of that attempt).
-/

namespace Autopilot

/-- `leadsWith needle hay`: the character list `needle` is an initial
segment of `hay`. -/
def leadsWith : List Char → List Char → Bool
  | [], _ => true
  | _ :: _, [] => false
  | c :: cs, d :: ds => c == d && leadsWith cs ds

/-- `occursIn needle hay`: `needle` occurs contiguously somewhere in
`hay`. -/
def occursIn (needle : List Char) : List Char → Bool
  | [] => leadsWith needle []
  | d :: ds => leadsWith needle (d :: ds) || occursIn needle ds

/-- Python substring test `needle in hay`. -/
def containsSub (hay needle : String) : Bool :=
  occursIn needle.data hay.data

/-- One entry of an assistant message's `tool_calls` list:
`id`, `function.name` and the raw JSON `function.arguments` text. -/
structure ToolCall where
  id : String
  fname : String
  args : String
deriving DecidableEq

/-- A JSON value, as produced by `json.loads`. -/
inductive JVal where
  | jnull
  | jbool (b : Bool)
  | jnum (n : Int)
  | jstr (s : String)
  | jarr (items : List JVal)
  | jobj (fields : List (String × JVal))

/-- One transcript entry (a Python message dict). `content = none`
models Python `None`; absent optional keys are modelled by `none` /
`[]` defaults. `toolCalls = some tcs` models presence of the
`"tool_calls"` key. -/
structure Msg where
  role : String
  content : Option String := none
  name : Option String := none
  toolCallId : Option String := none
  toolCalls : Option (List ToolCall) := none
deriving DecidableEq

/-- One tool definition offered to the remote API (only its name is
relevant to the selection logic). -/
structure FuncDef where
  name : String
deriving DecidableEq

/-- The external collaborators of `send_message`: the JSON argument
parser (`json.loads`, which can fail), the capability registry
(`getattr(gpt_functions, ...)`, which can be absent; an invoked
capability can fail = raise), the tool-definition list returned by
`gpt_functions.get_definitions(model)`, and
`gpt_functions.ask_clarification_func`. -/
structure Env where
  parseJson : String → Except String JVal
  lookup : String → Option (List (String × JVal) → Except String String)
  getDefinitions : List FuncDef
  askClarificationFunc : FuncDef

/-- First-occurrence association-list lookup: `fields[k]` / `fields.get(k)`
of a Python dict (whose keys are unique). -/
def lookupField (fields : List (String × JVal)) (k : String) : Option JVal :=
  (fields.find? (fun f => f.1 == k)).map Prod.snd

/-- In-place update `fields[k] = v` of a Python dict: the value at key
`k` is replaced, insertion order kept. -/
def setField (fields : List (String × JVal)) (k : String) (v : JVal) :
    List (String × JVal) :=
  fields.map (fun f => if f.1 == k then (f.1, v) else f)

/-- The `make_tasklist` task coercion: a dict entry keeps (or defaults)
exactly the two fields `file_involved` / `task_description`; a
non-dict entry is dropped (`isinstance(task, dict)` filter). -/
def coerceTask (t : JVal) : Option JVal :=
  match t with
  | .jobj tf =>
      some (.jobj
        [("file_involved", (lookupField tf "file_involved").getD (.jstr "NO_FILE")),
         ("task_description", (lookupField tf "task_description").getD (.jstr ""))])
  | _ => none

/-- Lines 81-91: when the parsed arguments form a dict with a `tasks`
key holding a list, that list is normalized entry-wise; otherwise the
arguments pass through unchanged (a non-dict argument value faults
later, at the `func(**func_args)` call, in either model). -/
def formatTasklistArgs (v : JVal) : JVal :=
  match v with
  | .jobj fields =>
      match lookupField fields "tasks" with
      | some (.jarr tasks) =>
          .jobj (setField fields "tasks" (.jarr (tasks.filterMap coerceTask)))
      | _ => .jobj fields
  | w => w

/-- Lines 73-94 of `process_tool_calls`, for one call: parse the
arguments (`json.loads`), look the capability up
(`getattr(gpt_functions, func_name)`), apply the `make_tasklist`
normalization, and invoke.  Every failure mode (parse error, unknown
name, non-mapping arguments, capability exception) is an `Except.error`
carrying the exception text. -/
def runToolCall (env : Env) (tc : ToolCall) : Except String String :=
  match env.parseJson tc.args with
  | .error e => .error e
  | .ok v =>
      match env.lookup tc.fname with
      | none => .error ("module modules.gpt_functions has no attribute " ++ tc.fname)
      | some f =>
          match (if tc.fname = "make_tasklist" then formatTasklistArgs v else v) with
          | .jobj fields => f fields
          | _ => .error "arguments must be a mapping"

/-- Lines 96-110: the single tool-role response message produced for
one call — on success the stringified result, on any caught exception
the `"Error: "`-prefixed text; either way it carries the call's id and
function name. -/
def mkToolResponse (env : Env) (tc : ToolCall) : Msg :=
  match runToolCall env tc with
  | .ok r =>
      { role := "tool", toolCallId := some tc.id, name := some tc.fname,
        content := some r }
  | .error e =>
      { role := "tool", toolCallId := some tc.id, name := some tc.fname,
        content := some ("Error: " ++ e) }

/-- `process_tool_calls` (lines 69-111): one response per call, in
input order; the `try/except` around each iteration keeps a fault in
one call from touching any other. -/
def processToolCalls (env : Env) (tcs : List ToolCall) : List Msg :=
  tcs.map (mkToolResponse env)

/-- The fixed placeholder of the assistant scan of `redact_messages`. -/
def messageRedactedPh : String := "<message redacted>"

/-- The fixed placeholder of the `read_file` scan of `redact_messages`. -/
def fileContentsRedactedPh : String := "<file contents redacted>"

/-- The placeholder written over the second-to-last message in the
truncated-output recovery step (line 125). -/
def fileContentRedactedPh : String := "<file content redacted>"

/-- The replacement text of `redact_always` (line 30). -/
def appendOkPh : String := "File appended successfully"

/-- Line 38: `msg["role"] == "assistant" and msg["content"] not in
[None, "<message redacted>"]`.  Note: empty-string content qualifies. -/
def assistantRedactable (m : Msg) : Bool :=
  m.role == "assistant" && m.content != none && m.content != some messageRedactedPh

/-- Line 41: `msg["role"] == "function" and msg["name"] == "read_file"
and msg["content"] not in [None, "<file contents redacted>"]`.  The
role tested is the legacy `"function"` role, not the `"tool"` role the
dispatcher emits. -/
def functionRedactable (m : Msg) : Bool :=
  m.role == "function" && m.name == some "read_file" &&
    m.content != none && m.content != some fileContentsRedactedPh

/-- `redact_messages` (lines 34-44): one forward loop over a deep copy;
each iteration tests the assistant condition and then the `read_file`
condition, and a `break` follows either replacement, so the loop stops
at the first message matching either condition. -/
def redactMessages : List Msg → List Msg
  | [] => []
  | m :: rest =>
      if assistantRedactable m then
        { m with content := some messageRedactedPh } :: rest
      else if functionRedactable m then
        { m with content := some fileContentsRedactedPh } :: rest
      else
        m :: redactMessages rest

/-- Either redaction condition of `redact_messages`. -/
def redactableMsg (m : Msg) : Bool :=
  assistantRedactable m || functionRedactable m

/-- The replacement `redact_messages` applies to the first matching
message (the assistant condition is tested first). -/
def redactOne (m : Msg) : Msg :=
  if assistantRedactable m then { m with content := some messageRedactedPh }
  else { m with content := some fileContentsRedactedPh }

/-- Line 29: `msg["role"] == "user" and "APPEND_OK" in msg["content"]`.
The source would raise `TypeError` on a user message whose content is
`None` (`in` over `None`); per the spec's data model content is absent
only transiently, and the theorems touching this pass assume user
messages carry content, so `none` is mapped to `false` here. -/
def userAppendOk (m : Msg) : Bool :=
  m.role == "user" &&
    (match m.content with
     | some c => containsSub c "APPEND_OK"
     | none => false)

/-- `redact_always` (lines 25-32): one forward loop over a deep copy
replacing the content of the first user message containing
`"APPEND_OK"`, then `break`. -/
def redactAlways : List Msg → List Msg
  | [] => []
  | m :: rest =>
      if userAppendOk m then { m with content := some appendOkPh } :: rest
      else m :: redactAlways rest

/-- `filter_messages` (lines 46-48): drop messages whose role is the
internal-only `"git"` marker. -/
def filterMessages (l : List Msg) : List Msg :=
  l.filter (fun m => m.role != "git")

/-- Modelled from the spec: `modules.token_saver.save_tokens` is not
among the sources; per §4.4 step 6 the request carries the full message
history (minus internal-marker roles, which `filter_messages` already
removed), so `save_tokens` is modelled as the identity on the filtered
list. -/
def saveTokens (l : List Msg) : List Msg := l

/-- The phase flags owned by the external `gpt_functions` / `checklist`
modules and read (and, for `outline_created`, written) by
`send_message`. -/
structure Flags where
  clarificationAsked : Nat
  initialQuestionCount : Nat
  outlineCreated : Bool
  modifyOutline : Bool
  activeTasklist : Bool
  activeChecklist : Bool
  taskOperationPerformed : Bool
deriving DecidableEq

/-- The two command-line toggles the selection logic reads:
`noQuestions` models `"no-questions" in cmd_args.args` and `noOutline`
models `"no-outline" in cmd_args.args`. -/
structure CmdArgs where
  noQuestions : Bool
  noOutline : Bool
deriving DecidableEq

/-- The `function_call` value threaded through `send_message`: the
string `"auto"`, a forced `{"name": ..., "arguments": ...}` dict, or
the string `"none"` (which makes the request carry a null
`tool_choice`). -/
inductive FunctionCall where
  | auto
  | forced (fname arguments : String)
  | nonePolicy
deriving DecidableEq

/-- The synthetic outline-request user message appended at lines
154-157. -/
def outlineInstruction : Msg :=
  { role := "user",
    content := some "Please tell me in full detail how you will implement this project. Write it in the first person as if you are the one who will be creating it. Start sentences with \x27I will\x27, \x27Then I will\x27 and \x27Next I will\x27" }

/-- What the selection block (lines 128-158) produces: the tool
definitions offered, the (possibly overwritten) `function_call`, the
synthetic user message to append if any, the new value of the
`outline_created` flag, and the `create_outline` global. -/
structure SelectResult where
  defs : List FuncDef
  fc : FunctionCall
  extra : Option Msg
  outlineCreated : Bool
  createOutline : Bool
deriving DecidableEq

/-- Lines 128-158 of `send_message`: task-list/checklist filtering of
the definition list, then the clarification branch (which replaces the
definitions with the single clarification tool and forces its call),
else the outline branch (which also replaces the definitions with the
single clarification tool, sets `function_call = "none"`, appends the
synthetic outline instruction unless `modify_outline`, and sets
`outline_created`), else the filtered definitions with the incoming
`function_call`. -/
def selectTools (defs0 : List FuncDef) (askClar : FuncDef) (flags : Flags)
    (args : CmdArgs) (fc : FunctionCall) : SelectResult :=
  let defs1 :=
    if flags.activeTasklist || flags.activeChecklist then
      defs0.filter (fun d => d.name != "make_tasklist" && d.name != "project_finished")
    else
      defs0.filter (fun d => d.name != "task_finished")
  let defs2 :=
    if flags.taskOperationPerformed = false then
      defs1.filter (fun d => d.name != "task_finished")
    else defs1
  if args.noQuestions = false ∧ flags.clarificationAsked < flags.initialQuestionCount then
    { defs := [askClar], fc := .forced "ask_clarification" "questions",
      extra := none, outlineCreated := flags.outlineCreated, createOutline := false }
  else if args.noOutline = false ∧ flags.outlineCreated = false then
    { defs := [askClar], fc := .nonePolicy,
      extra := if flags.modifyOutline = false then some outlineInstruction else none,
      outlineCreated := true, createOutline := true }
  else
    { defs := defs2, fc := fc, extra := none,
      outlineCreated := flags.outlineCreated, createOutline := false }

/-- The sentinel of the truncated-output recovery path (line 123):
`message.get("content")` must be truthy (non-`None`, non-empty) and
contain `"No END_OF_FILE_CONTENT"`. -/
def sentinelStr : String := "No END_OF_FILE_CONTENT"

/-- Line 123 condition on the incoming user message. -/
def hasTruncationSentinel (m : Msg) : Bool :=
  match m.content with
  | some c => (c != "") && containsSub c sentinelStr
  | none => false

/-- Line 125: `messages[-2]["content"] = "<file content redacted>"`,
for lists of length at least two (shorter lists raise `IndexError`,
handled separately in the pipeline below). -/
def setPenultimateContent (c : String) : List Msg → List Msg
  | [] => []
  | [a] => [a]
  | [a, b] => [{ a with content := some c }, b]
  | a :: b :: d :: rest => a :: setPenultimateContent c (b :: d :: rest)

/-- Line 115: `last_message and "tool_calls" in last_message` — the
transcript is non-empty and its last message carries the `tool_calls`
key. -/
def pendingToolCalls (msgs : List Msg) : Bool :=
  match msgs.getLast? with
  | some lm => lm.toolCalls.isSome
  | none => false

/-- Lines 113-117: resolve the previous turn's tool calls and append
their responses. -/
def step1 (env : Env) (msgs : List Msg) : List Msg :=
  match msgs.getLast? with
  | some lm =>
      match lm.toolCalls with
      | some tcs => msgs ++ processToolCalls env tcs
      | none => msgs
  | none => msgs

/-- The one `choice` of a successful remote reply: role, nullable
content, optional tool calls. -/
structure Response where
  role : String
  content : Option String
  toolCalls : Option (List ToolCall)
deriving DecidableEq

/-- The exceptions `send_message` can raise to its caller, each
carrying the transcript contents at raise time (the list object the
caller holds, mutated in place): the unguarded `messages[-2]` access of
the recovery step, and the transport failure re-raised once the retry
budget is exhausted. -/
inductive TurnError where
  | indexOutOfRange (msgsAtRaise : List Msg)
  | transport (msgsAtRaise : List Msg)
  | outOfFuel
deriving DecidableEq

/-- The observables of a successful `send_message` call: the message
list passed to `client.chat.completions.create` (line 173) and the
message list returned to the caller (line 259). -/
structure TurnOutcome where
  submitted : List Msg
  returned : List Msg
deriving DecidableEq

/-- Lines 204-219: the assistant message built from the reply,
normalizing null content to the empty string and attaching
`tool_calls` only when the reply's list is truthy (non-`None`,
non-empty). -/
def buildResponseMsg (resp : Response) : Msg :=
  let base : Msg := { role := resp.role, content := some (resp.content.getD "") }
  match resp.toolCalls with
  | some tcs => if tcs = [] then base else { base with toolCalls := some tcs }
  | none => base

/-- Lines 199-226: on success, `messages` is rebound to
`redact_always(messages)`, the reply message is appended, and any tool
calls it carries are dispatched eagerly with their responses
appended. -/
def successFold (env : Env) (m5 : List Msg) (resp : Response) : List Msg :=
  let m6 := redactAlways m5
  let rm := buildResponseMsg resp
  let m7 := m6 ++ [rm]
  match rm.toolCalls with
  | some tcs => m7 ++ processToolCalls env tcs
  | none => m7

/-- Everything `send_message` does before the network request: steps
1-3 (previous tool calls, append of the user message, truncated-output
recovery — whose unguarded `messages[-2]` access raises outside the
retry handler) and the selection block (which may append the synthetic
outline message and set `outline_created`).  Returns the message list
about to be sent, the `function_call` in effect, and the updated
flags. -/
def attemptPre (env : Env) (args : CmdArgs) (flags : Flags) (msgs : List Msg)
    (message : Msg) (fc : FunctionCall) :
    Except TurnError (List Msg × FunctionCall × Flags) :=
  let m2 := step1 env msgs ++ [message]
  let m3E : Except TurnError (List Msg) :=
    if hasTruncationSentinel message then
      if 2 ≤ m2.length then
        .ok (redactMessages (setPenultimateContent fileContentRedactedPh m2))
      else .error (.indexOutOfRange m2)
    else .ok m2
  match m3E with
  | .error e => .error e
  | .ok m3 =>
      let sel := selectTools env.getDefinitions env.askClarificationFunc flags args fc
      .ok (m3 ++ sel.extra.toList, sel.fc,
           { flags with outlineCreated := sel.outlineCreated })

/-- The body of `send_message` with the recursion made structural on a
fuel argument (the source recurses with `retries + 1` and raises once
`retries >= 4`, so fuel `5` at `retries = 0` never runs out).  A
transport failure with budget left pops the last message
(`messages.pop()`) and retries the whole turn; the final failure
re-raises before any pop. -/
def sendMessageFuel (env : Env) (args : CmdArgs) (oracle : Nat → Option Response) :
    Nat → Nat → Flags → List Msg → Msg → FunctionCall →
    Except TurnError TurnOutcome
  | 0, _, _, _, _, _ => .error .outOfFuel
  | fuel + 1, retries, flags, msgs, message, fc =>
      match attemptPre env args flags msgs message fc with
      | .error e => .error e
      | .ok (m5, fc2, flags2) =>
          match oracle retries with
          | some resp =>
              .ok { submitted := saveTokens (filterMessages m5),
                    returned := successFold env m5 resp }
          | none =>
              if 4 ≤ retries then .error (.transport m5)
              else
                sendMessageFuel env args oracle fuel (retries + 1) flags2
                  m5.dropLast message fc2

/-- `send_message` as called by the rest of the program: retry counter
starts at `0`; fuel `5` covers the at most five attempts. -/
def sendMessage (env : Env) (args : CmdArgs) (oracle : Nat → Option Response)
    (flags : Flags) (msgs : List Msg) (message : Msg) (fc : FunctionCall) :
    Except TurnError TurnOutcome :=
  sendMessageFuel env args oracle 5 0 flags msgs message fc

/-! Concrete fixtures for evaluating the definitions on explicit
inputs. -/

/-- A small environment whose registry knows no capability. -/
def envW : Env :=
  { parseJson := fun s =>
      if s = "\x7b\x7d" then .ok (.jobj []) else .error ("Expecting value: " ++ s),
    lookup := fun _ => none,
    getDefinitions := [⟨"write_file"⟩, ⟨"make_tasklist"⟩, ⟨"task_finished"⟩],
    askClarificationFunc := ⟨"ask_clarification"⟩ }

/-- A tool call naming a capability absent from `envW`. -/
def tcW : ToolCall := { id := "call-1", fname := "list_files", args := "\x7b\x7d" }

/-- The exception text `runToolCall envW tcW` produces. -/
def errW : String := "module modules.gpt_functions has no attribute list_files"

/-- A task entry that is a record (with only `file_involved` given). -/
def taskEntryW : JVal := .jobj [("file_involved", .jstr "main.py")]

/-- A `tasks` list mixing a record entry and a malformed entry. -/
def tasksListW : List JVal := [taskEntryW, .jstr "junk"]

/-- The parsed `make_tasklist` arguments. -/
def tasklistFieldsW : List (String × JVal) := [("tasks", .jarr tasksListW)]

/-- A capability that reports how many tasks it received. -/
def capTasklistW : List (String × JVal) → Except String String :=
  fun fields =>
    match lookupField fields "tasks" with
    | some (.jarr ts) => .ok ("Created task list with " ++ toString ts.length ++ " tasks")
    | _ => .error "tasks missing"

/-- An environment registering only `make_tasklist`. -/
def envTasklistW : Env :=
  { parseJson := fun _ => .ok (.jobj tasklistFieldsW),
    lookup := fun n => if n = "make_tasklist" then some capTasklistW else none,
    getDefinitions := [],
    askClarificationFunc := ⟨"ask_clarification"⟩ }

/-- The `make_tasklist` call of the fixture. -/
def tcTasklistW : ToolCall :=
  { id := "call-2", fname := "make_tasklist", args := "\x7b\x7d" }

/-- A plain user message without any sentinel. -/
def userHiW : Msg := { role := "user", content := some "hi" }

/-- A user message containing the `APPEND_OK` completion sentinel. -/
def appendOkUserW : Msg := { role := "user", content := some "APPEND_OK file.txt" }

/-- A follow-up user message. -/
def contW : Msg := { role := "user", content := some "continue" }

/-- A user message carrying the truncated-output sentinel. -/
def truncMsgW : Msg :=
  { role := "user", content := some "No END_OF_FILE_CONTENT found in output" }

/-- An assistant message with unredacted content. -/
def assistantHiW : Msg := { role := "assistant", content := some "hi" }

/-- Two assistant messages with distinct unredacted contents. -/
def assistantAW : Msg := { role := "assistant", content := some "a" }

/-- See `assistantAW`. -/
def assistantBW : Msg := { role := "assistant", content := some "b" }

/-- A dispatcher-produced tool response of the `read_file` tool: role
`"tool"`, as built at lines 97-102. -/
def toolReadFileW : Msg :=
  { role := "tool", name := some "read_file", toolCallId := some "call-3",
    content := some "file data" }

/-- A legacy function-role `read_file` message (the role
`redact_messages` actually tests). -/
def funcReadFileW : Msg :=
  { role := "function", name := some "read_file", content := some "file data" }

/-- Command-line arguments disabling both the clarification and the
outline phases. -/
def argsOffW : CmdArgs := { noQuestions := true, noOutline := true }

/-- Command-line arguments enabling both phases. -/
def argsOnW : CmdArgs := { noQuestions := false, noOutline := false }

/-- Command-line arguments disabling clarifications but enabling the
outline phase. -/
def argsOutlineW : CmdArgs := { noQuestions := true, noOutline := false }

/-- Neutral flags: no clarification budget, no outline yet. -/
def flagsW : Flags :=
  { clarificationAsked := 0, initialQuestionCount := 0, outlineCreated := false,
    modifyOutline := false, activeTasklist := false, activeChecklist := false,
    taskOperationPerformed := false }

/-- Flags with one clarification question still to ask (and an active
task list, to witness that the clarification rule overrides the
task-list filtering). -/
def flagsClarW : Flags :=
  { clarificationAsked := 0, initialQuestionCount := 1, outlineCreated := false,
    modifyOutline := false, activeTasklist := true, activeChecklist := false,
    taskOperationPerformed := false }

/-- A sample tool definition for the selection fixtures. -/
def writeFileDefW : FuncDef := ⟨"write_file"⟩

/-- The clarification tool definition of the fixtures. -/
def askClarW : FuncDef := ⟨"ask_clarification"⟩

/-- A network oracle failing every attempt. -/
def oracleFailW : Nat → Option Response := fun _ => none

/-- A plain successful assistant reply without tool calls. -/
def respW : Response := { role := "assistant", content := some "done", toolCalls := none }

/-- A network oracle answering every attempt with `respW`. -/
def oracleOkW : Nat → Option Response := fun _ => some respW

/-! Helper lemmas. -/

theorem redactMessages_eq_self (l : List Msg)
    (h : ∀ m ∈ l, redactableMsg m = false) : redactMessages l = l := by
  induction l with
  | nil => rfl
  | cons m rest ih =>
      have hm := h m (List.mem_cons_self m rest)
      rw [redactableMsg, Bool.or_eq_false_iff] at hm
      rw [redactMessages, if_neg (by simp [hm.1]), if_neg (by simp [hm.2])]
      rw [ih (fun x hx => h x (List.mem_cons_of_mem m hx))]

/-- Claim C1 (confirmed): `dispatch` answers every call of a batch in
order, with matching `tool_call_id` and `name`, one tool-role message
per call; each response is a function of its own call alone, and a
faulting call yields an `"Error: "`-prefixed content without affecting
any other response. -/
theorem dispatch_batch_invariant (env : Env) (tcs : List ToolCall) :
    (processToolCalls env tcs).length = tcs.length ∧
    ∀ (i : Nat) (tc : ToolCall), tcs[i]? = some tc →
      (processToolCalls env tcs)[i]? = some (mkToolResponse env tc) ∧
      (mkToolResponse env tc).role = "tool" ∧
      (mkToolResponse env tc).toolCallId = some tc.id ∧
      (mkToolResponse env tc).name = some tc.fname ∧
      ∀ e, runToolCall env tc = .error e →
        (mkToolResponse env tc).content = some ("Error: " ++ e) := by
  refine ⟨by simp [processToolCalls], ?_⟩
  intro i tc hi
  refine ⟨by simp [processToolCalls, List.getElem?_map, hi], ?_, ?_, ?_, ?_⟩
  · cases hrc : runToolCall env tc <;> simp [mkToolResponse, hrc]
  · cases hrc : runToolCall env tc <;> simp [mkToolResponse, hrc]
  · cases hrc : runToolCall env tc <;> simp [mkToolResponse, hrc]
  · intro e he; simp [mkToolResponse, he]

theorem dispatch_batch_invariant_witness :
    ([tcW][0]? = some tcW) ∧
    (processToolCalls envW [tcW]).length = [tcW].length ∧
    (processToolCalls envW [tcW])[0]? = some (mkToolResponse envW tcW) ∧
    runToolCall envW tcW = .error errW ∧
    (mkToolResponse envW tcW).content = some ("Error: " ++ errW) := by
  have h := dispatch_batch_invariant envW [tcW]
  have h2 := h.2 0 tcW rfl
  exact ⟨rfl, h.1, h2.1, rfl, h2.2.2.2.2 errW rfl⟩

/-- Claim C3 counterexample: on a transcript with two redactable
assistant messages, the second application of `redact_sensitive`
redacts the second one (the first now carries the excluded
placeholder), so the function is not idempotent. -/
theorem redact_sensitive_not_idempotent :
    redactMessages (redactMessages [assistantAW, assistantBW]) ≠
      redactMessages [assistantAW, assistantBW] := by decide

/-- Claim C3 (corrected): `redact_sensitive` is idempotent on
transcripts in which at most one message satisfies a redaction
condition; with two or more candidates a second application redacts
the next one. -/
theorem redact_sensitive_idempotent_single_candidate (l : List Msg)
    (h : l.countP redactableMsg ≤ 1) :
    redactMessages (redactMessages l) = redactMessages l := by
  induction l with
  | nil => rfl
  | cons m rest ih =>
      by_cases ha : assistantRedactable m = true
      · have hrole : m.role = "assistant" := by
          rw [assistantRedactable] at ha
          simp only [Bool.and_eq_true, beq_iff_eq] at ha
          exact ha.1.1
        have hcount : rest.countP redactableMsg = 0 := by
          have : redactableMsg m = true := by
            rw [redactableMsg, ha, Bool.true_or]
          rw [List.countP_cons_of_pos redactableMsg rest this] at h
          omega
        have hrest : redactMessages rest = rest :=
          redactMessages_eq_self rest
            (fun x hx => by
              have := (List.countP_eq_zero.mp hcount) x hx
              exact Bool.not_eq_true _ ▸ Bool.eq_false_iff.mpr this)
        rw [redactMessages, if_pos ha]
        rw [redactMessages,
          if_neg (by simp [assistantRedactable]),
          if_neg (by simp [functionRedactable, hrole]),
          hrest]
      · by_cases hf : functionRedactable m = true
        · have hrole : m.role = "function" := by
            rw [functionRedactable] at hf
            simp only [Bool.and_eq_true, beq_iff_eq] at hf
            exact hf.1.1.1
          have hcount : rest.countP redactableMsg = 0 := by
            have : redactableMsg m = true := by
              rw [redactableMsg, hf, Bool.or_true]
            rw [List.countP_cons_of_pos redactableMsg rest this] at h
            omega
          have hrest : redactMessages rest = rest :=
            redactMessages_eq_self rest
              (fun x hx => by
                have := (List.countP_eq_zero.mp hcount) x hx
                exact Bool.not_eq_true _ ▸ Bool.eq_false_iff.mpr this)
          rw [redactMessages, if_neg ha, if_pos hf]
          rw [redactMessages,
            if_neg (by simp [assistantRedactable, hrole]),
            if_neg (by simp [functionRedactable]),
            hrest]
        · have hcount : rest.countP redactableMsg ≤ 1 := by
            rw [List.countP_cons] at h
            omega
          rw [redactMessages, if_neg ha, if_neg hf]
          rw [redactMessages, if_neg ha, if_neg hf, ih hcount]

theorem redact_sensitive_idempotent_single_candidate_witness :
    ([assistantAW].countP redactableMsg ≤ 1) ∧
    redactMessages (redactMessages [assistantAW]) = redactMessages [assistantAW] :=
  ⟨by decide, redact_sensitive_idempotent_single_candidate [assistantAW] (by decide)⟩

/-- Claim C5 counterexample: a dispatcher-produced tool response of
`read_file` has role `"tool"`, which the scan (testing the legacy role
`"function"`) never matches — the transcript is returned unchanged
where the claim demands a replacement. -/
theorem redact_sensitive_tool_role_untouched :
    redactMessages [toolReadFileW] = [toolReadFileW] ∧
    toolReadFileW.content ≠ some fileContentsRedactedPh := by
  exact ⟨rfl, by decide⟩

/-- Claim C5 (corrected): `redact_sensitive` performs one combined
scan, not two independent ones: it stops at the first message matching
either condition (assistant with non-`None`, non-placeholder content —
tested first — or legacy function-role `read_file` with non-placeholder
content), replaces that single message, and leaves every other message
— including any later match of the other kind, and every tool-role
message the dispatcher produced — unchanged. -/
theorem redact_sensitive_single_scan :
    (∀ l : List Msg, (∀ m ∈ l, redactableMsg m = false) → redactMessages l = l) ∧
    (∀ (l1 : List Msg) (m : Msg) (l2 : List Msg),
      (∀ x ∈ l1, redactableMsg x = false) → redactableMsg m = true →
      redactMessages (l1 ++ m :: l2) = l1 ++ redactOne m :: l2) := by
  refine ⟨redactMessages_eq_self, ?_⟩
  intro l1 m l2 hl1 hm
  induction l1 with
  | nil =>
      by_cases ha : assistantRedactable m = true
      · simp only [List.nil_append]
        rw [redactMessages, if_pos ha, redactOne, if_pos ha]
      · have hf : functionRedactable m = true := by
          rw [redactableMsg, Bool.or_eq_true] at hm
          rcases hm with hm | hm
          · exact absurd hm ha
          · exact hm
        simp only [List.nil_append]
        rw [redactMessages, if_neg ha, if_pos hf, redactOne, if_neg ha]
  | cons x rest ih =>
      have hx := hl1 x (List.mem_cons_self x rest)
      rw [redactableMsg, Bool.or_eq_false_iff] at hx
      simp only [List.cons_append]
      rw [redactMessages, if_neg (by simp [hx.1]), if_neg (by simp [hx.2])]
      rw [ih (fun y hy => hl1 y (List.mem_cons_of_mem x hy))]

theorem redact_sensitive_single_scan_witness :
    (∀ x ∈ [userHiW], redactableMsg x = false) ∧
    redactableMsg assistantAW = true ∧
    redactMessages ([userHiW] ++ assistantAW :: [funcReadFileW]) =
      [userHiW] ++ redactOne assistantAW :: [funcReadFileW] :=
  ⟨by decide, by decide,
   redact_sensitive_single_scan.2 [userHiW] assistantAW [funcReadFileW]
     (by decide) (by decide)⟩

theorem formatTasklistArgs_obj (fields : List (String × JVal)) (ts : List JVal)
    (htasks : lookupField fields "tasks" = some (.jarr ts)) :
    formatTasklistArgs (.jobj fields) =
      .jobj (setField fields "tasks" (.jarr (ts.filterMap coerceTask))) := by
  simp only [formatTasklistArgs, htasks]

/-- Claim C9 (confirmed): when `make_tasklist` is dispatched with a
`tasks` argument that parses to a list, the capability receives the
arguments with each record entry coerced to exactly
`file_involved` (default `"NO_FILE"`) / `task_description` (default
`""`), and each non-record entry dropped. -/
theorem make_tasklist_dispatch_normalizes (env : Env) (tc : ToolCall)
    (fields : List (String × JVal)) (ts : List JVal)
    (f : List (String × JVal) → Except String String)
    (hname : tc.fname = "make_tasklist")
    (hparse : env.parseJson tc.args = .ok (.jobj fields))
    (hlookup : env.lookup "make_tasklist" = some f)
    (htasks : lookupField fields "tasks" = some (.jarr ts)) :
    runToolCall env tc =
      f (setField fields "tasks" (.jarr (ts.filterMap (fun t =>
          match t with
          | .jobj tf => some (.jobj
              [("file_involved", (lookupField tf "file_involved").getD (.jstr "NO_FILE")),
               ("task_description", (lookupField tf "task_description").getD (.jstr ""))])
          | _ => none)))) := by
  simp only [runToolCall, hparse, hname, hlookup,
    formatTasklistArgs_obj fields ts htasks]
  rfl

theorem make_tasklist_dispatch_normalizes_witness :
    tcTasklistW.fname = "make_tasklist" ∧
    envTasklistW.parseJson tcTasklistW.args = .ok (.jobj tasklistFieldsW) ∧
    envTasklistW.lookup "make_tasklist" = some capTasklistW ∧
    lookupField tasklistFieldsW "tasks" = some (.jarr tasksListW) ∧
    runToolCall envTasklistW tcTasklistW =
      capTasklistW (setField tasklistFieldsW "tasks" (.jarr (tasksListW.filterMap (fun t =>
          match t with
          | .jobj tf => some (.jobj
              [("file_involved", (lookupField tf "file_involved").getD (.jstr "NO_FILE")),
               ("task_description", (lookupField tf "task_description").getD (.jstr ""))])
          | _ => none)))) :=
  ⟨rfl, rfl, rfl, rfl,
   make_tasklist_dispatch_normalizes envTasklistW tcTasklistW tasklistFieldsW
     tasksListW capTasklistW rfl rfl rfl rfl⟩

/-- Claim C6 (confirmed): with clarification questions enabled and the
asked-count below the threshold, the selection block offers exactly the
clarification tool, forces its invocation, appends nothing, and leaves
the outline flag alone — whatever the task-list/checklist flags and
incoming definitions were (the branch discards the filtered list). -/
theorem selectTools_clarification_forces (defs0 : List FuncDef) (askClar : FuncDef)
    (flags : Flags) (args : CmdArgs) (fc : FunctionCall)
    (h1 : args.noQuestions = false)
    (h2 : flags.clarificationAsked < flags.initialQuestionCount) :
    selectTools defs0 askClar flags args fc =
      { defs := [askClar], fc := .forced "ask_clarification" "questions",
        extra := none, outlineCreated := flags.outlineCreated,
        createOutline := false } := by
  rw [selectTools]
  simp only [if_pos (And.intro h1 h2)]

theorem selectTools_clarification_forces_witness :
    argsOnW.noQuestions = false ∧
    flagsClarW.clarificationAsked < flagsClarW.initialQuestionCount ∧
    selectTools [writeFileDefW] askClarW flagsClarW argsOnW .auto =
      { defs := [askClarW], fc := .forced "ask_clarification" "questions",
        extra := none, outlineCreated := flagsClarW.outlineCreated,
        createOutline := false } :=
  ⟨rfl, by decide,
   selectTools_clarification_forces [writeFileDefW] askClarW flagsClarW argsOnW
     .auto rfl (by decide)⟩

/-- Claim C7 counterexample: at a state where the outline rule applies
(clarifications disabled, outline enabled, no outline yet), the
selection block offers the clarification tool's definition — not an
empty tool list as the claim states (`definitions =
[gpt_functions.ask_clarification_func]` at line 151). -/
theorem outline_phase_offers_tool :
    (selectTools [writeFileDefW] askClarW flagsW argsOutlineW .auto).defs = [askClarW] ∧
    [askClarW] ≠ ([] : List FuncDef) := by
  exact ⟨rfl, by decide⟩

/-- Claim C7 (corrected): in the outline phase the selection block
offers exactly one tool definition (the clarification tool's) while
setting the forced-call policy to `"none"`; unless this is a revision
of an existing outline it emits the single synthetic first-person
planning message; it sets the outline-produced flag, and on a retried
turn (flag already set) the branch no longer applies, so no second
synthetic message is emitted and the flag stays set. -/
theorem selectTools_outline_phase (defs0 : List FuncDef) (askClar : FuncDef)
    (flags : Flags) (args : CmdArgs) (fc : FunctionCall)
    (h1 : args.noQuestions = true ∨ flags.initialQuestionCount ≤ flags.clarificationAsked)
    (h2 : args.noOutline = false) (h3 : flags.outlineCreated = false) :
    selectTools defs0 askClar flags args fc =
      { defs := [askClar], fc := .nonePolicy,
        extra := if flags.modifyOutline = false then some outlineInstruction else none,
        outlineCreated := true, createOutline := true } ∧
    ∀ fc2 : FunctionCall,
      (selectTools defs0 askClar { flags with outlineCreated := true } args fc2).extra = none ∧
      (selectTools defs0 askClar { flags with outlineCreated := true } args fc2).outlineCreated = true := by
  have hnot : ¬(args.noQuestions = false ∧
      flags.clarificationAsked < flags.initialQuestionCount) := by
    rintro ⟨hq, hlt⟩
    rcases h1 with h1 | h1
    · rw [h1] at hq; cases hq
    · omega
  constructor
  · rw [selectTools]
    simp only [if_neg hnot, if_pos (And.intro h2 h3)]
  · intro fc2
    rw [selectTools]
    simp only [if_neg hnot]
    simp

theorem selectTools_outline_phase_witness :
    (argsOutlineW.noQuestions = true ∨
      flagsW.initialQuestionCount ≤ flagsW.clarificationAsked) ∧
    argsOutlineW.noOutline = false ∧
    flagsW.outlineCreated = false ∧
    (selectTools [writeFileDefW] askClarW flagsW argsOutlineW .auto =
      { defs := [askClarW], fc := .nonePolicy,
        extra := if flagsW.modifyOutline = false then some outlineInstruction else none,
        outlineCreated := true, createOutline := true } ∧
    ∀ fc2 : FunctionCall,
      (selectTools [writeFileDefW] askClarW { flagsW with outlineCreated := true } argsOutlineW fc2).extra = none ∧
      (selectTools [writeFileDefW] askClarW { flagsW with outlineCreated := true } argsOutlineW fc2).outlineCreated = true) :=
  ⟨Or.inl rfl, rfl, rfl,
   selectTools_outline_phase [writeFileDefW] askClarW flagsW argsOutlineW .auto
     (Or.inl rfl) rfl rfl⟩

theorem sendMessageFuel_succ (env : Env) (args : CmdArgs)
    (oracle : Nat → Option Response) (fuel retries : Nat) (flags : Flags)
    (msgs : List Msg) (message : Msg) (fc : FunctionCall) :
    sendMessageFuel env args oracle (fuel + 1) retries flags msgs message fc =
      match attemptPre env args flags msgs message fc with
      | .error e => .error e
      | .ok (m5, fc2, flags2) =>
          match oracle retries with
          | some resp =>
              .ok { submitted := saveTokens (filterMessages m5),
                    returned := successFold env m5 resp }
          | none =>
              if 4 ≤ retries then .error (.transport m5)
              else
                sendMessageFuel env args oracle fuel (retries + 1) flags2
                  m5.dropLast message fc2 := rfl

theorem step1_of_no_pending (env : Env) (msgs : List Msg)
    (h : pendingToolCalls msgs = false) : step1 env msgs = msgs := by
  unfold step1
  unfold pendingToolCalls at h
  cases hl : msgs.getLast? with
  | none => rfl
  | some lm =>
      rw [hl] at h
      cases hc : lm.toolCalls with
      | none => simp [hc]
      | some tcs =>
          have h2 : lm.toolCalls.isSome = false := by simpa using h
          rw [hc] at h2
          simp at h2

theorem selectTools_default (defs0 : List FuncDef) (askClar : FuncDef)
    (flags : Flags) (args : CmdArgs) (fc : FunctionCall)
    (h1 : args.noQuestions = true ∨ flags.initialQuestionCount ≤ flags.clarificationAsked)
    (h2 : args.noOutline = true ∨ flags.outlineCreated = true) :
    (selectTools defs0 askClar flags args fc).extra = none ∧
    (selectTools defs0 askClar flags args fc).fc = fc ∧
    (selectTools defs0 askClar flags args fc).outlineCreated = flags.outlineCreated := by
  have hnot1 : ¬(args.noQuestions = false ∧
      flags.clarificationAsked < flags.initialQuestionCount) := by
    rintro ⟨hq, hlt⟩
    rcases h1 with h1 | h1
    · rw [h1] at hq; cases hq
    · omega
  have hnot2 : ¬(args.noOutline = false ∧ flags.outlineCreated = false) := by
    rintro ⟨ho, hoc⟩
    rcases h2 with h2 | h2
    · rw [h2] at ho; cases ho
    · rw [h2] at hoc; cases hoc
  rw [selectTools]
  simp [if_neg hnot1, if_neg hnot2]

theorem attemptPre_default (env : Env) (args : CmdArgs) (flags : Flags)
    (msgs : List Msg) (message : Msg) (fc : FunctionCall)
    (hpend : pendingToolCalls msgs = false)
    (hsent : hasTruncationSentinel message = false)
    (h1 : args.noQuestions = true ∨ flags.initialQuestionCount ≤ flags.clarificationAsked)
    (h2 : args.noOutline = true ∨ flags.outlineCreated = true) :
    attemptPre env args flags msgs message fc = .ok (msgs ++ [message], fc, flags) := by
  obtain ⟨he, hf, hoc⟩ :=
    selectTools_default env.getDefinitions env.askClarificationFunc flags args fc h1 h2
  rw [attemptPre]
  simp only [step1_of_no_pending env msgs hpend, hsent, Bool.false_eq_true, if_false,
    he, hf, hoc, Option.toList_none, List.append_nil]

theorem attemptPre_noSentinel (env : Env) (args : CmdArgs) (flags : Flags)
    (msgs : List Msg) (message : Msg) (fc : FunctionCall)
    (hsent : hasTruncationSentinel message = false) :
    attemptPre env args flags msgs message fc =
      .ok (step1 env msgs ++ [message] ++
             (selectTools env.getDefinitions env.askClarificationFunc flags args fc).extra.toList,
           (selectTools env.getDefinitions env.askClarificationFunc flags args fc).fc,
           { flags with outlineCreated :=
               (selectTools env.getDefinitions env.askClarificationFunc flags args fc).outlineCreated }) := by
  rw [attemptPre]
  simp only [hsent, Bool.false_eq_true, if_false]

theorem attemptPre_sentinel (env : Env) (args : CmdArgs) (flags : Flags)
    (msgs : List Msg) (message : Msg) (fc : FunctionCall)
    (hsent : hasTruncationSentinel message = true)
    (h2 : 2 ≤ (step1 env msgs ++ [message]).length) :
    attemptPre env args flags msgs message fc =
      .ok (redactMessages
             (setPenultimateContent fileContentRedactedPh (step1 env msgs ++ [message])) ++
             (selectTools env.getDefinitions env.askClarificationFunc flags args fc).extra.toList,
           (selectTools env.getDefinitions env.askClarificationFunc flags args fc).fc,
           { flags with outlineCreated :=
               (selectTools env.getDefinitions env.askClarificationFunc flags args fc).outlineCreated }) := by
  rw [attemptPre]
  simp only [hsent, if_true, if_pos h2]

theorem successFold_eq (env : Env) (m5 : List Msg) (resp : Response) :
    successFold env m5 resp =
      redactAlways m5 ++ [buildResponseMsg resp] ++
        (match (buildResponseMsg resp).toolCalls with
         | some tcs => processToolCalls env tcs
         | none => []) := by
  rw [successFold]
  cases h : (buildResponseMsg resp).toolCalls with
  | none => simp [h]
  | some tcs => simp [h]

theorem sendMessageFuel_allfail (env : Env) (args : CmdArgs)
    (oracle : Nat → Option Response) (flags : Flags) (msgs : List Msg)
    (message : Msg) (fc : FunctionCall)
    (hpend : pendingToolCalls msgs = false)
    (hsent : hasTruncationSentinel message = false)
    (h1 : args.noQuestions = true ∨ flags.initialQuestionCount ≤ flags.clarificationAsked)
    (h2 : args.noOutline = true ∨ flags.outlineCreated = true)
    (horacle : ∀ n, oracle n = none) :
    ∀ (fuel retries : Nat), 5 ≤ fuel + retries → retries ≤ 4 →
      sendMessageFuel env args oracle fuel retries flags msgs message fc =
        .error (.transport (msgs ++ [message]))
  | 0, retries, hge, hle => by omega
  | fuel + 1, retries, hge, hle => by
      simp only [sendMessageFuel_succ,
        attemptPre_default env args flags msgs message fc hpend hsent h1 h2,
        horacle retries]
      by_cases hr : 4 ≤ retries
      · simp only [if_pos hr]
      · simp only [if_neg hr, List.dropLast_concat]
        exact sendMessageFuel_allfail env args oracle flags msgs message fc
          hpend hsent h1 h2 horacle fuel (retries + 1) (by omega) (by omega)

/-- Claim C2 counterexample: with an empty prior transcript, a plain
user message and every attempt failing, `send_message` raises after
five failures with the transcript holding the just-appended user
message — one message longer than before the call, not equal to it. -/
theorem retry_exhaustion_transcript_grows :
    sendMessage envW argsOffW oracleFailW flagsW [] userHiW .auto =
      .error (.transport [userHiW]) ∧
    ([userHiW].length ≠ ([] : List Msg).length) := by
  exact ⟨rfl, by decide⟩

/-- Claim C2 (corrected): after retry-budget-plus-one (5) consecutive
transport failures `send_message` raises the failure, but the rollback
is not complete: `messages.pop()` runs only before each retry, and the
final failing attempt re-raises before popping, so at raise time the
transcript equals its prior contents plus one copy of the just-appended
user message (stated here for turns outside the clarification/outline
branches, with no pending tool calls and no truncation sentinel). -/
theorem sendMessage_allfail_keeps_user_message (env : Env) (args : CmdArgs)
    (oracle : Nat → Option Response) (flags : Flags) (msgs : List Msg)
    (message : Msg) (fc : FunctionCall)
    (hpend : pendingToolCalls msgs = false)
    (hsent : hasTruncationSentinel message = false)
    (h1 : args.noQuestions = true ∨ flags.initialQuestionCount ≤ flags.clarificationAsked)
    (h2 : args.noOutline = true ∨ flags.outlineCreated = true)
    (horacle : ∀ n, oracle n = none) :
    sendMessage env args oracle flags msgs message fc =
      .error (.transport (msgs ++ [message])) := by
  exact sendMessageFuel_allfail env args oracle flags msgs message fc
    hpend hsent h1 h2 horacle 5 0 (by omega) (by omega)

theorem sendMessage_allfail_keeps_user_message_witness :
    pendingToolCalls [] = false ∧
    hasTruncationSentinel userHiW = false ∧
    argsOffW.noQuestions = true ∧
    argsOffW.noOutline = true ∧
    sendMessage envW argsOffW oracleFailW flagsW [] userHiW .auto =
      .error (.transport ([] ++ [userHiW])) :=
  ⟨rfl, rfl, rfl, rfl,
   sendMessage_allfail_keeps_user_message envW argsOffW oracleFailW flagsW []
     userHiW .auto rfl rfl (Or.inl rfl) (Or.inl rfl) (fun _ => rfl)⟩

/-- Claim C10 (confirmed): with an empty prior transcript and a user
message carrying the truncated-output sentinel, the unguarded
`messages[-2]` access of the recovery step fails for every network
oracle — the error is produced before any request and outside the
transport-retry handler, so it propagates to the caller without being
retried. -/
theorem truncation_sentinel_empty_transcript_raises (env : Env) (args : CmdArgs)
    (oracle : Nat → Option Response) (flags : Flags) (message : Msg)
    (fc : FunctionCall)
    (hsent : hasTruncationSentinel message = true) :
    sendMessage env args oracle flags [] message fc =
      .error (.indexOutOfRange [message]) := by
  have hpre : attemptPre env args flags [] message fc =
      .error (.indexOutOfRange [message]) := by
    rw [attemptPre]
    have hstep : step1 env [] = ([] : List Msg) := rfl
    simp only [hstep, List.nil_append, hsent, if_true, List.length_cons,
      List.length_nil]
    norm_num
  rw [sendMessage, show (5 : Nat) = 4 + 1 from rfl, sendMessageFuel_succ, hpre]

theorem truncation_sentinel_empty_transcript_raises_witness :
    hasTruncationSentinel truncMsgW = true ∧
    sendMessage envW argsOffW oracleOkW flagsW [] truncMsgW .auto =
      .error (.indexOutOfRange [truncMsgW]) :=
  ⟨rfl,
   truncation_sentinel_empty_transcript_raises envW argsOffW oracleOkW flagsW
     truncMsgW .auto rfl⟩

/-- Claim C4 counterexample: after a successful turn, the transcript
returned to the caller (line 259) is the one rebound to
`redact_always(messages)` at line 200 — here the `APPEND_OK` user
message comes back with its content replaced by the redaction
placeholder, so the transcript handed back (and used for the next API
call) is not unredacted. -/
theorem returned_transcript_redacted :
    sendMessage envW argsOffW oracleOkW flagsW [appendOkUserW] contW .auto =
      .ok { submitted := [appendOkUserW, contW],
            returned := [{ appendOkUserW with content := some appendOkPh }, contW,
                         { role := "assistant", content := some "done" }] } ∧
    some appendOkPh ≠ appendOkUserW.content := by
  exact ⟨rfl, by decide⟩

/-- Claim C4 (corrected): outside the truncation-recovery path the
message list submitted to the remote API is built purely by appends —
no redaction pass touches it — but the transcript returned to the
caller is not the unredacted canonical list: it is the
`redact_always` copy of it (first `APPEND_OK` user message replaced),
with the reply and its tool responses appended.  `redact_sensitive`
still operates only on display copies on this path.  (The content
hypotheses reflect that the source would raise `TypeError` on a user
message with `None` content inside `redact_always`.) -/
theorem sendMessage_submission_unredacted (env : Env) (args : CmdArgs)
    (oracle : Nat → Option Response) (flags : Flags) (msgs : List Msg)
    (message : Msg) (fc : FunctionCall) (resp : Response)
    (hsent : hasTruncationSentinel message = false)
    (horacle : oracle 0 = some resp)
    (hum : ∀ m ∈ msgs, m.role = "user" → m.content ≠ none)
    (hmc : message.role = "user" → message.content ≠ none) :
    sendMessage env args oracle flags msgs message fc =
      .ok { submitted :=
              saveTokens (filterMessages (step1 env msgs ++ [message] ++
                (selectTools env.getDefinitions env.askClarificationFunc flags args fc).extra.toList)),
            returned :=
              redactAlways (step1 env msgs ++ [message] ++
                (selectTools env.getDefinitions env.askClarificationFunc flags args fc).extra.toList)
              ++ [buildResponseMsg resp]
              ++ (match (buildResponseMsg resp).toolCalls with
                  | some tcs => processToolCalls env tcs
                  | none => []) } := by
  rw [sendMessage, show (5 : Nat) = 4 + 1 from rfl, sendMessageFuel_succ,
    attemptPre_noSentinel env args flags msgs message fc hsent]
  simp only [horacle, successFold_eq]

theorem sendMessage_submission_unredacted_witness :
    hasTruncationSentinel contW = false ∧
    oracleOkW 0 = some respW ∧
    (∀ m ∈ [appendOkUserW], m.role = "user" → m.content ≠ none) ∧
    (contW.role = "user" → contW.content ≠ none) ∧
    sendMessage envW argsOffW oracleOkW flagsW [appendOkUserW] contW .auto =
      .ok { submitted :=
              saveTokens (filterMessages (step1 envW [appendOkUserW] ++ [contW] ++
                (selectTools envW.getDefinitions envW.askClarificationFunc flagsW argsOffW .auto).extra.toList)),
            returned :=
              redactAlways (step1 envW [appendOkUserW] ++ [contW] ++
                (selectTools envW.getDefinitions envW.askClarificationFunc flagsW argsOffW .auto).extra.toList)
              ++ [buildResponseMsg respW]
              ++ (match (buildResponseMsg respW).toolCalls with
                  | some tcs => processToolCalls envW tcs
                  | none => []) } :=
  ⟨rfl, rfl, by decide, by decide,
   sendMessage_submission_unredacted envW argsOffW oracleOkW flagsW
     [appendOkUserW] contW .auto respW rfl rfl (by decide) (by decide)⟩

theorem step1_length_ge (env : Env) (msgs : List Msg) :
    msgs.length ≤ (step1 env msgs).length := by
  rw [step1]
  cases hl : msgs.getLast? with
  | none => simp
  | some lm =>
      cases hc : lm.toolCalls with
      | none => simp [hc]
      | some tcs => simp [hc]

theorem setPenultimateContent_getElem (c : String) :
    ∀ (l : List Msg), 2 ≤ l.length →
      ∃ m0, l[l.length - 2]? = some m0 ∧
        (setPenultimateContent c l)[l.length - 2]? = some { m0 with content := some c }
  | [], h => by simp at h
  | [a], h => by simp at h
  | [a, b], _ => ⟨a, rfl, rfl⟩
  | a :: b :: d :: rest, _ => by
      obtain ⟨m0, h1, h2⟩ :=
        setPenultimateContent_getElem c (b :: d :: rest) (by simp)
      have hlen : (a :: b :: d :: rest).length - 2 = ((b :: d :: rest).length - 2) + 1 := by
        simp only [List.length_cons]
        omega
      refine ⟨m0, ?_, ?_⟩
      · rw [hlen, List.getElem?_cons_succ]
        exact h1
      · rw [setPenultimateContent, hlen, List.getElem?_cons_succ]
        exact h2

theorem redactMessages_getElem :
    ∀ (l : List Msg) (i : Nat) (m0 : Msg), l[i]? = some m0 →
      ∃ m1, (redactMessages l)[i]? = some m1 ∧
        (m1.content = m0.content ∨ m1.content = some messageRedactedPh ∨
         m1.content = some fileContentsRedactedPh)
  | [], i, m0, h => by simp at h
  | m :: rest, 0, m0, h => by
      rw [List.getElem?_cons_zero] at h
      injection h with h
      subst h
      by_cases ha : assistantRedactable m = true
      · refine ⟨{ m with content := some messageRedactedPh }, ?_, Or.inr (Or.inl rfl)⟩
        rw [redactMessages, if_pos ha, List.getElem?_cons_zero]
      · by_cases hf : functionRedactable m = true
        · refine ⟨{ m with content := some fileContentsRedactedPh }, ?_, Or.inr (Or.inr rfl)⟩
          rw [redactMessages, if_neg ha, if_pos hf, List.getElem?_cons_zero]
        · refine ⟨m, ?_, Or.inl rfl⟩
          rw [redactMessages, if_neg ha, if_neg hf, List.getElem?_cons_zero]
  | m :: rest, i + 1, m0, h => by
      rw [List.getElem?_cons_succ] at h
      by_cases ha : assistantRedactable m = true
      · refine ⟨m0, ?_, Or.inl rfl⟩
        rw [redactMessages, if_pos ha, List.getElem?_cons_succ]
        exact h
      · by_cases hf : functionRedactable m = true
        · refine ⟨m0, ?_, Or.inl rfl⟩
          rw [redactMessages, if_neg ha, if_pos hf, List.getElem?_cons_succ]
          exact h
        · obtain ⟨m1, h1, h2⟩ := redactMessages_getElem rest i m0 h
          refine ⟨m1, ?_, h2⟩
          rw [redactMessages, if_neg ha, if_neg hf, List.getElem?_cons_succ]
          exact h1

/-- Claim C8 counterexample: when the second-to-last message is itself
the first match of the in-place `redact_sensitive` pass (here: the only
assistant message), the pass overwrites the just-written
`"<file content redacted>"` marker with `"<message redacted>"`, so
after step 3 the second-to-last content does not equal the recovery
step's fixed placeholder. -/
theorem truncation_placeholder_overwritten :
    attemptPre envW argsOffW flagsW [assistantHiW] truncMsgW .auto =
      .ok ([{ role := "assistant", content := some messageRedactedPh }, truncMsgW],
           .auto, flagsW) ∧
    some messageRedactedPh ≠ some fileContentRedactedPh := by
  exact ⟨rfl, by decide⟩

/-- Claim C8 (corrected): on the truncation-recovery path the
second-to-last message's content after step 3 is a redaction
placeholder — `"<file content redacted>"` unless the in-place
`redact_sensitive` scan selects that same message, in which case it
carries that scan's placeholder — and the message list submitted to the
remote request is computed from this mutated transcript (filtered of
internal git-role markers), not from a separate display copy. -/
theorem sendMessage_truncation_recovery (env : Env) (args : CmdArgs)
    (oracle : Nat → Option Response) (flags : Flags) (msgs : List Msg)
    (message : Msg) (fc : FunctionCall) (resp : Response)
    (hne : msgs ≠ [])
    (hsent : hasTruncationSentinel message = true)
    (horacle : oracle 0 = some resp) :
    sendMessage env args oracle flags msgs message fc =
      .ok { submitted :=
              saveTokens (filterMessages
                (redactMessages (setPenultimateContent fileContentRedactedPh
                   (step1 env msgs ++ [message])) ++
                 (selectTools env.getDefinitions env.askClarificationFunc flags args fc).extra.toList)),
            returned :=
              successFold env
                (redactMessages (setPenultimateContent fileContentRedactedPh
                   (step1 env msgs ++ [message])) ++
                 (selectTools env.getDefinitions env.askClarificationFunc flags args fc).extra.toList)
                resp } ∧
    ∃ pm,
      (redactMessages (setPenultimateContent fileContentRedactedPh
         (step1 env msgs ++ [message])))[(step1 env msgs ++ [message]).length - 2]? =
        some pm ∧
      (pm.content = some fileContentRedactedPh ∨
       pm.content = some messageRedactedPh ∨
       pm.content = some fileContentsRedactedPh) := by
  have hone : 1 ≤ msgs.length := by
    cases msgs with
    | nil => exact absurd rfl hne
    | cons a l => simp
  have hlen : 2 ≤ (step1 env msgs ++ [message]).length := by
    have := step1_length_ge env msgs
    simp only [List.length_append, List.length_cons, List.length_nil]
    omega
  constructor
  · rw [sendMessage, show (5 : Nat) = 4 + 1 from rfl, sendMessageFuel_succ,
      attemptPre_sentinel env args flags msgs message fc hsent hlen]
    simp only [horacle]
  · obtain ⟨m0, hg0, hg1⟩ :=
      setPenultimateContent_getElem fileContentRedactedPh
        (step1 env msgs ++ [message]) hlen
    obtain ⟨m1, hr1, hr2⟩ :=
      redactMessages_getElem
        (setPenultimateContent fileContentRedactedPh (step1 env msgs ++ [message]))
        ((step1 env msgs ++ [message]).length - 2) _ hg1
    exact ⟨m1, hr1, hr2⟩

theorem sendMessage_truncation_recovery_witness :
    ([userHiW] ≠ ([] : List Msg)) ∧
    hasTruncationSentinel truncMsgW = true ∧
    oracleOkW 0 = some respW ∧
    (sendMessage envW argsOffW oracleOkW flagsW [userHiW] truncMsgW .auto =
      .ok { submitted :=
              saveTokens (filterMessages
                (redactMessages (setPenultimateContent fileContentRedactedPh
                   (step1 envW [userHiW] ++ [truncMsgW])) ++
                 (selectTools envW.getDefinitions envW.askClarificationFunc flagsW argsOffW .auto).extra.toList)),
            returned :=
              successFold envW
                (redactMessages (setPenultimateContent fileContentRedactedPh
                   (step1 envW [userHiW] ++ [truncMsgW])) ++
                 (selectTools envW.getDefinitions envW.askClarificationFunc flagsW argsOffW .auto).extra.toList)
                respW } ∧
    ∃ pm,
      (redactMessages (setPenultimateContent fileContentRedactedPh
         (step1 envW [userHiW] ++ [truncMsgW])))[(step1 envW [userHiW] ++ [truncMsgW]).length - 2]? =
        some pm ∧
      (pm.content = some fileContentRedactedPh ∨
       pm.content = some messageRedactedPh ∨
       pm.content = some fileContentsRedactedPh)) :=
  ⟨by decide, rfl, rfl,
   sendMessage_truncation_recovery envW argsOffW oracleOkW flagsW [userHiW]
     truncMsgW .auto respW (by decide) rfl rfl⟩

end Autopilot
